import Mathlib

/-!
Verification of the comparison-and-sync engine of `system_sync.py`
(AmberELEC System File Sync Utility).

The engine is embedded shallowly:

* a filesystem is a map from paths to file states (`none` = no such file,
  `unreadable` = the file exists but opening or reading it raises),
* file contents are modelled as strings of bytes/characters,
* the MD5 digest is a parameter `md5 : String → String` of the definitions
  that hash. The source streams the file through `hashlib.md5` in 4096-byte
  chunks; since the digest is a pure function of the full byte sequence, it
  is embedded as a function of the whole content.
* Python exceptions are made explicit where a function both raises and
  catches (`Except` values); functions whose body is wrapped in a
  catch-all `except` are total.
-/

namespace SystemSync

/-- A filesystem path, as its list of components. -/
abbrev Path := List String

/-- State of one file: either it can be opened and fully read, yielding its
content, or any attempt to open/read it raises an exception. -/
inductive FileData where
  | readable (content : String)
  | unreadable
deriving DecidableEq, Repr

/-- A filesystem: `none` means the path does not exist (so `Path.exists()`
is false there); `some` means it exists as a regular file. -/
abbrev FS := Path → Option FileData

/-- `True` iff the path exists and can be read. -/
def isReadableB : Option FileData → Bool
  | some (FileData.readable _) => true
  | _ => false

/-- Comparison status, the closed variant form of the source's duck-typed
status strings `"new"`, `"modified"`, `"identical"`, `f"error: {e}"`. -/
inductive Status where
  | new
  | modified
  | identical
  | error (reason : String)
deriving DecidableEq, Repr

/-- Join path components the way `str(path)` renders a path. -/
def pathStr (p : Path) : String :=
  String.intercalate "/" p

/-- Final path component, as `path.name` in the source. -/
def pathName (p : Path) : String :=
  p.getLast?.getD ""

/-- `file_hash(filepath)` — calculates the MD5 hash of a file.
The whole body sits in `try: ... except Exception: return None`, so a file
that does not exist or cannot be opened/read yields `none` (the `None`
sentinel) and the function never raises. A readable file yields its digest. -/
def file_hash (md5 : String → String) (fs : FS) (p : Path) : Option String :=
  match fs p with
  | some (FileData.readable c) => some (md5 c)
  | _ => none

/-- A call to `file_hash` as seen from inside the `try` block of
`compare_files`: the call could in principle propagate an exception
(`Except.error`), but `file_hash` catches everything it raises, so the
call always returns normally with the `Option` result. -/
def hashStep (md5 : String → String) (fs : FS) (p : Path) : Except String (Option String) :=
  Except.ok (file_hash md5 fs p)

/-- `compare_files(src, dest)` — compare two files and return a status.
If `dest` does not exist the status is `new`; otherwise both files are
hashed inside a `try` block whose `except` branch turns a raised exception
into `error reason`; equal hash values (including `None == None` when both
hashes failed) give `identical`, unequal ones give `modified`. -/
def compare_files (md5 : String → String) (fs : FS) (src dest : Path) : Status :=
  if (fs dest).isNone then Status.new
  else
    match hashStep md5 fs src with
    | Except.error e => Status.error e
    | Except.ok src_hash =>
      match hashStep md5 fs dest with
      | Except.error e => Status.error e
      | Except.ok dest_hash =>
        if src_hash = dest_hash then Status.identical else Status.modified

/-- One entry of `self.files_to_sync`: the dict built by
`check_system_folder` with keys `src`, `dest`, `rel_path`, `status`,
`selected`. -/
structure FileInfo where
  src : Path
  dest : Path
  rel_path : String
  status : Status
  selected : Bool
deriving DecidableEq, Repr

/-- The parts of the machine state `check_system_folder` consumes:
whether `self.system_path` exists, the relative paths of the regular files
`os.walk` enumerates beneath it (in traversal order), and the filesystem
contents. -/
structure SysFS where
  fs : FS
  systemExists : Bool
  walk : List Path

/-- `check_system_folder()` — returns `False` (here `none`) when the System
folder does not exist; otherwise walks the System directory and collects,
in traversal order, a `FileInfo` for every file whose comparison status is
not `identical`, each created with `selected = True`. The returned list is
the `self.files_to_sync` the call leaves behind (here paired into the
`some`). -/
def check_system_folder (md5 : String → String) (sys : SysFS)
    (systemPath rootPath : Path) : Option (List FileInfo) :=
  if !sys.systemExists then none
  else
    some (sys.walk.filterMap fun rel =>
      let src := systemPath ++ rel
      let dest := rootPath ++ rel
      let status := compare_files md5 sys.fs src dest
      if status = Status.identical then none
      else some { src := src, dest := dest, rel_path := pathStr rel,
                  status := status, selected := true })

/-- Split a character sequence into lines the way Python's `readlines()`
does: each line keeps its trailing newline; a final fragment without a
newline is its own line; the empty string has no lines. -/
def splitCh : List Char → List (List Char)
  | [] => []
  | c :: cs =>
    if c = '\n' then [c] :: splitCh cs
    else
      match splitCh cs with
      | [] => [[c]]
      | l :: ls => (c :: l) :: ls

/-- `f.readlines()` on a file whose decoded content is `s`. The source
decodes with `errors='ignore'`; content is modelled as the decoded text. -/
def readLines (s : String) : List String :=
  (splitCh s.data).map String.mk

/-- The change lines of one diff hunk over `from` and `to` line lists:
lines only in the `from` side carry `-`, lines only in the `to` side carry
`+`, common lines carry a space. Models the body that
`difflib.unified_diff` emits (a deterministic line-matching variant; the
claims proved below use only the prefix discipline it shares with
`difflib`). -/
def diffBody : List String → List String → List String
  | [], t => t.map fun b => "+" ++ b
  | a :: as, [] => ("-" ++ a) :: diffBody as []
  | a :: as, b :: bs =>
    if a = b then (" " ++ a) :: diffBody as bs
    else ("-" ++ a) :: diffBody as (b :: bs)

/-- `difflib.unified_diff(fromLines, toLines, fromfile, tofile, lineterm='')`
as a list of display lines: empty exactly when the two line sequences are
equal; otherwise the `--- fromfile` / `+++ tofile` header pair, a hunk
header (modelled as a bare `@@` marker), and the change lines. -/
def unifiedDiff (fromLines toLines : List String) (fromfile tofile : String) : List String :=
  if fromLines = toLines then []
  else ("--- " ++ fromfile) :: ("+++ " ++ tofile) :: "@@" :: diffBody fromLines toLines

/-- `get_file_diff(src, dest)` — generate the diff between two files.
Inside a `try` block: a missing `dest` yields the single synthetic
new-file notice; otherwise `src` then `dest` are opened and read
(`errors='ignore'`), and `difflib.unified_diff` is applied with the
**dest** lines as the from side and the **src** lines as the to side.
An exception (either file unopenable) reaches the `except` branch, which
yields a single `Cannot generate diff` line (its message is modelled by
the offending path). -/
def get_file_diff (fs : FS) (src dest : Path) : List String :=
  if (fs dest).isNone then ["New file: " ++ pathName src]
  else
    match fs src with
    | some (FileData.readable csrc) =>
      match fs dest with
      | some (FileData.readable cdest) =>
        unifiedDiff (readLines cdest) (readLines csrc) (pathStr dest) (pathStr src)
      | _ => ["Cannot generate diff: " ++ pathStr dest]
    | _ => ["Cannot generate diff: " ++ pathStr src]

/-- The diff the UI requests for one candidate (`handle_input`, key `d`):
`get_file_diff(file_info['src'], file_info['dest'])` — only the two path
fields of the candidate are consulted. -/
def diffOfCandidate (fs : FS) (fi : FileInfo) : List String :=
  get_file_diff fs fi.src fi.dest

/-- The machine state the sync step reads and writes: the filesystem and,
per destination path, whether creating its directory chain and copying
onto it succeeds (permissions, disk space, I/O health). -/
structure World where
  fs : FS
  writable : Path → Bool

/-- `sync_file(file_info)` — sync a single file. Inside a `try` block:
create the destination directory chain (idempotent), then
`shutil.copy2(src, dest)`, which reads `src` and overwrites `dest` with
its content and metadata. Any exception (unreadable/missing `src`,
unwritable destination) is caught and reported as `False`; success
returns `True` with `dest` now holding the overlay content. Metadata
bits are not modelled beyond content. -/
def sync_file (w : World) (fi : FileInfo) : World × Bool :=
  match w.fs fi.src with
  | some (FileData.readable c) =>
    if w.writable fi.dest then
      ({ w with fs := fun p => if p = fi.dest then some (FileData.readable c) else w.fs p },
       true)
    else (w, false)
  | _ => (w, false)

/-- Result of `sync_selected_files()`: the final machine state, the
candidate list as it stands after the batch (the loop only reads the
dicts), and the two tallies it returns. -/
structure SyncBatchResult where
  world : World
  files : List FileInfo
  success : Nat
  fail : Nat

/-- `sync_selected_files()` — for each candidate in order, if it is
selected, run `sync_file` on it and bump the success or failure tally by
its boolean result; unselected candidates are skipped. No exception can
escape (`sync_file` catches everything), so every candidate is visited. -/
def sync_selected_files (w : World) : List FileInfo → SyncBatchResult
  | [] => ⟨w, [], 0, 0⟩
  | fi :: rest =>
    if fi.selected then
      let step := sync_file w fi
      let r := sync_selected_files step.1 rest
      { world := r.world, files := fi :: r.files,
        success := if step.2 then r.success + 1 else r.success,
        fail := if step.2 then r.fail else r.fail + 1 }
    else
      let r := sync_selected_files w rest
      { world := r.world, files := fi :: r.files,
        success := r.success, fail := r.fail }

/-- Number of selected candidates in a list (`f['selected']` true). -/
def countSelected (files : List FileInfo) : Nat :=
  (files.filter fun fi => fi.selected).length

/-- Number of selected candidates whose destination the world refuses to
write (the candidates whose copy step must fail). -/
def badCount (wr : Path → Bool) (files : List FileInfo) : Nat :=
  (files.filter fun fi => fi.selected && !(wr fi.dest)).length

/-- The SPACE-key handler on the list screen:
`files[i]['selected'] = not files[i]['selected']`. -/
def toggle_selected (files : List FileInfo) (i : Nat) : List FileInfo :=
  match files[i]? with
  | some fi => files.set i { fi with selected := !fi.selected }
  | none => files

/-! Concrete fixtures used to instantiate the theorems below. -/

/-- An overlay file that cannot be read next to an existing, readable
target file. -/
def fsMaskOne : FS := fun p =>
  if p = ["storage", "roms", "System", "etc", "foo"] then some FileData.unreadable
  else if p = ["etc", "foo"] then some (FileData.readable "x")
  else none

/-- Both the overlay file and the (existing) target file fail to read. -/
def fsMaskBoth : FS := fun p =>
  if p = ["storage", "roms", "System", "etc", "foo"] then some FileData.unreadable
  else if p = ["etc", "foo"] then some FileData.unreadable
  else none

/-- The overlay path and target path of the fixture file `etc/foo`. -/
def srcFoo : Path := ["storage", "roms", "System", "etc", "foo"]

/-- Target-side path of the fixture file `etc/foo`. -/
def destFoo : Path := ["etc", "foo"]

/-- A tiny filesystem with one overlay file whose target content differs. -/
def fsOneMod : FS := fun p =>
  if p = ["sys", "f"] then some (FileData.readable "a\n")
  else if p = ["tgt", "f"] then some (FileData.readable "b\n")
  else none

/-- Scanner input over `fsOneMod`: the System folder exists and holds the
single file `f`. -/
def sysOneMod : SysFS := ⟨fsOneMod, true, [["f"]]⟩

/-- The candidate the scan over `fsOneMod` produces for `f`. -/
def fiOneMod : FileInfo :=
  { src := ["sys", "f"], dest := ["tgt", "f"], rel_path := "f",
    status := Status.modified, selected := true }

/-- A candidate carrying an `Error` status, over the same two files. -/
def fiErr : FileInfo :=
  { src := ["sys", "f"], dest := ["tgt", "f"], rel_path := "f",
    status := Status.error "boom", selected := true }

/-- A world where only the destination `["bad"]` cannot be written. -/
def wOneBad : World :=
  { fs := fun p => if p = ["sys", "f"] then some (FileData.readable "a\n") else none,
    writable := fun p => if p = ["bad"] then false else true }

/-- Three selected candidates sharing the readable overlay file; the middle
one aims at the unwritable destination. -/
def filesOneBad : List FileInfo :=
  [{ src := ["sys", "f"], dest := ["d1"], rel_path := "d1",
     status := Status.modified, selected := true },
   { src := ["sys", "f"], dest := ["bad"], rel_path := "bad",
     status := Status.new, selected := true },
   { src := ["sys", "f"], dest := ["d2"], rel_path := "d2",
     status := Status.new, selected := true }]

/-! Helper lemmas shared by the claim theorems. -/

/-- Every candidate the scan materializes carries the status the comparator
computed for its own pair of paths, and that status is not `identical`. -/
lemma mem_scan {md5 : String → String} {sys : SysFS} {sp rp : Path}
    {res : List FileInfo} (hres : check_system_folder md5 sys sp rp = some res)
    {fi : FileInfo} (hfi : fi ∈ res) :
    fi.status = compare_files md5 sys.fs fi.src fi.dest ∧
    fi.status ≠ Status.identical := by
  unfold check_system_folder at hres
  cases hse : sys.systemExists
  · rw [hse] at hres
    simp at hres
  · rw [hse] at hres
    simp only [Bool.not_true, Bool.false_eq_true, if_false, Option.some.injEq] at hres
    subst hres
    obtain ⟨rel, _hrel, heq⟩ := List.mem_filterMap.mp hfi
    split at heq
    · exact absurd heq (by simp)
    · next hne =>
      cases heq
      exact ⟨rfl, hne⟩

/-- Since `file_hash` never raises, `compare_files` reduces to the
exception-free comparison of the two hash values. -/
lemma compare_files_eq (md5 : String → String) (fs : FS) (src dest : Path) :
    compare_files md5 fs src dest =
      if (fs dest).isNone then Status.new
      else if file_hash md5 fs src = file_hash md5 fs dest then Status.identical
      else Status.modified := rfl

/-- The success flag of a single sync step: the copy succeeds exactly when
the overlay file is readable and the destination is writable. -/
lemma sync_file_snd (w : World) (fi : FileInfo) :
    (sync_file w fi).2 = (isReadableB (w.fs fi.src) && w.writable fi.dest) := by
  rcases hsrc : w.fs fi.src with _ | d
  · simp [sync_file, hsrc, isReadableB]
  · rcases d with c | _
    · by_cases hw : w.writable fi.dest <;> simp [sync_file, hsrc, hw, isReadableB]
    · simp [sync_file, hsrc, isReadableB]

/-- A sync step never changes which destinations are writable. -/
lemma sync_file_writable (w : World) (fi : FileInfo) :
    (sync_file w fi).1.writable = w.writable := by
  rcases hsrc : w.fs fi.src with _ | d
  · simp [sync_file, hsrc]
  · rcases d with c | _
    · by_cases hw : w.writable fi.dest <;> simp [sync_file, hsrc, hw]
    · simp [sync_file, hsrc]

/-- A sync step preserves readability of every path: it only ever writes
readable content. -/
lemma sync_file_readable (w : World) (fi : FileInfo) (p : Path)
    (h : isReadableB (w.fs p) = true) :
    isReadableB ((sync_file w fi).1.fs p) = true := by
  rcases hsrc : w.fs fi.src with _ | d
  · simpa [sync_file, hsrc] using h
  · rcases d with c | _
    · by_cases hw : w.writable fi.dest
      · by_cases hp : p = fi.dest
        · simp [sync_file, hsrc, hw, hp, isReadableB]
        · simp only [sync_file, hsrc, hw, if_true]
          simpa [hp] using h
      · simpa [sync_file, hsrc, hw] using h
    · simpa [sync_file, hsrc] using h

/-! Claim theorems. -/

/-- C1 (claim refuted; the code masks hash failures): on a pair whose
target exists, when hashing the overlay file fails (`file_hash` returns
the `None` sentinel) `compare_files` classifies the pair as `modified`
rather than `error`, and when hashing fails on both sides the two `None`
sentinels compare equal and the pair is classified `identical`. The spec
requires `Error(reason)` in both situations. -/
theorem c1_hash_failure_is_masked :
    (∃ d, fsMaskOne destFoo = some d) ∧
    file_hash id fsMaskOne srcFoo = none ∧
    compare_files id fsMaskOne srcFoo destFoo = Status.modified ∧
    (∃ d, fsMaskBoth destFoo = some d) ∧
    file_hash id fsMaskBoth srcFoo = none ∧
    file_hash id fsMaskBoth destFoo = none ∧
    compare_files id fsMaskBoth srcFoo destFoo = Status.identical := by
  exact ⟨⟨FileData.readable "x", rfl⟩, rfl, rfl, ⟨FileData.unreadable, rfl⟩, rfl, rfl, rfl⟩

/-- C3: byte-identical readable files compare as `identical`, and the scan
never materializes a candidate whose pair of files is byte-identical and
readable. -/
theorem c3_identical_never_materialized :
    (∀ (md5 : String → String) (fs : FS) (src dest : Path) (c : String),
      fs src = some (FileData.readable c) → fs dest = some (FileData.readable c) →
      compare_files md5 fs src dest = Status.identical) ∧
    (∀ (md5 : String → String) (sys : SysFS) (sp rp : Path) (res : List FileInfo),
      check_system_folder md5 sys sp rp = some res →
      ∀ fi ∈ res, ¬ ∃ c, sys.fs fi.src = some (FileData.readable c) ∧
        sys.fs fi.dest = some (FileData.readable c)) := by
  have hcmp : ∀ (md5 : String → String) (fs : FS) (src dest : Path) (c : String),
      fs src = some (FileData.readable c) → fs dest = some (FileData.readable c) →
      compare_files md5 fs src dest = Status.identical := by
    intro md5 fs src dest c hs hd
    simp [compare_files, hashStep, file_hash, hs, hd]
  refine ⟨hcmp, ?_⟩
  intro md5 sys sp rp res hres fi hfi ⟨c, hs, hd⟩
  obtain ⟨hstat, hne⟩ := mem_scan hres hfi
  exact hne (hstat.trans (hcmp md5 sys.fs fi.src fi.dest c hs hd))

/-- C3 witness: the comparator on a concrete byte-identical pair, and the
concrete scanned candidate over `fsOneMod` is not a byte-identical pair. -/
theorem c3_witness :
    compare_files id (fun _ => some (FileData.readable "a")) ["x"] ["y"] = Status.identical ∧
    ¬ ∃ c, sysOneMod.fs fiOneMod.src = some (FileData.readable c) ∧
      sysOneMod.fs fiOneMod.dest = some (FileData.readable c) := by
  constructor
  · exact c3_identical_never_materialized.1 id _ ["x"] ["y"] "a" rfl rfl
  · exact c3_identical_never_materialized.2 id sysOneMod ["sys"] ["tgt"] [fiOneMod]
      (by decide) fiOneMod (by simp)

/-- C4: a missing overlay root makes the scan fail (`check_system_folder`
returns `False`, embedded as `none`), an existing but empty overlay root
yields the empty candidate list under `True` (embedded as `some []`), and
the two outcomes are distinct values. -/
theorem c4_scan_notfound_vs_empty :
    (∀ (md5 : String → String) (fs : FS) (walk : List Path) (sp rp : Path),
      check_system_folder md5 ⟨fs, false, walk⟩ sp rp = none) ∧
    (∀ (md5 : String → String) (fs : FS) (sp rp : Path),
      check_system_folder md5 ⟨fs, true, []⟩ sp rp = some []) ∧
    (∀ (md5 md5' : String → String) (fs fs' : FS) (walk : List Path) (sp rp sp' rp' : Path),
      check_system_folder md5 ⟨fs, false, walk⟩ sp rp ≠
      check_system_folder md5' ⟨fs', true, []⟩ sp' rp') := by
  refine ⟨fun _ _ _ _ _ => rfl, fun _ _ _ _ => rfl, fun _ _ _ _ _ _ _ _ _ => ?_⟩
  simp [check_system_folder]

/-- C7: an overlay file with no target counterpart compares as `new`, and
its diff is exactly the one-line synthetic new-file notice. -/
theorem c7_new_file_notice (md5 : String → String) (fs : FS) (src dest : Path)
    (h : fs dest = none) :
    compare_files md5 fs src dest = Status.new ∧
    get_file_diff fs src dest = ["New file: " ++ pathName src] ∧
    (get_file_diff fs src dest).length = 1 := by
  refine ⟨?_, ?_, ?_⟩ <;> simp [compare_files, get_file_diff, h]

/-- C7 witness: the theorem applied to a concrete missing target. -/
theorem c7_witness :
    compare_files id (fun _ => none) ["sys", "a", "b"] ["a", "b"] = Status.new ∧
    get_file_diff (fun _ => none) ["sys", "a", "b"] ["a", "b"] =
      ["New file: " ++ pathName ["sys", "a", "b"]] ∧
    (get_file_diff (fun _ => none) ["sys", "a", "b"] ["a", "b"]).length = 1 :=
  c7_new_file_notice id (fun _ => none) ["sys", "a", "b"] ["a", "b"] rfl

/-- C10: `file_hash` absorbs every open/read failure into the `None`
sentinel, so the exception branch of `compare_files` (the one producing an
`error` status) is unreachable and no scan result ever contains a
candidate with an `error` status. -/
theorem c10_error_branch_unreachable :
    (∀ (md5 : String → String) (fs : FS) (p : Path),
      fs p = none ∨ fs p = some FileData.unreadable → file_hash md5 fs p = none) ∧
    (∀ (md5 : String → String) (fs : FS) (src dest : Path) (r : String),
      compare_files md5 fs src dest ≠ Status.error r) ∧
    (∀ (md5 : String → String) (sys : SysFS) (sp rp : Path) (res : List FileInfo),
      check_system_folder md5 sys sp rp = some res →
      ∀ fi ∈ res, ∀ r, fi.status ≠ Status.error r) := by
  have hcmp : ∀ (md5 : String → String) (fs : FS) (src dest : Path) (r : String),
      compare_files md5 fs src dest ≠ Status.error r := by
    intro md5 fs src dest r h
    rw [compare_files_eq] at h
    split at h
    · simp at h
    · split at h <;> simp at h
  refine ⟨?_, hcmp, ?_⟩
  · rintro md5 fs p (h | h) <;> simp [file_hash, h]
  · intro md5 sys sp rp res hres fi hfi r hstat
    exact hcmp md5 sys.fs fi.src fi.dest r ((mem_scan hres hfi).1 ▸ hstat)

/-- C10 witness: the three conjuncts applied at concrete inputs. -/
theorem c10_witness :
    file_hash id (fun _ => none) ["p"] = none ∧
    compare_files id fsMaskOne srcFoo destFoo ≠ Status.error "e" ∧
    fiOneMod.status ≠ Status.error "e" := by
  refine ⟨?_, ?_, ?_⟩
  · exact c10_error_branch_unreachable.1 id (fun _ => none) ["p"] (Or.inl rfl)
  · exact c10_error_branch_unreachable.2.1 id fsMaskOne srcFoo destFoo "e"
  · exact c10_error_branch_unreachable.2.2 id sysOneMod ["sys"] ["tgt"] [fiOneMod]
      (by decide) fiOneMod (by simp) "e"

/-- C5 counterexample (claim as stated is false): on a candidate whose
stored status is `error "boom"` and whose two files exist with differing
readable content, the diff routine does not return a single line with the
stored reason — it re-reads both files and returns a five-line unified
diff built from their current contents. -/
theorem c5_counterexample :
    fiErr.status = Status.error "boom" ∧
    diffOfCandidate fsOneMod fiErr =
      ["--- tgt/f", "+++ sys/f", "@@", "-b\n", "+a\n"] ∧
    (diffOfCandidate fsOneMod fiErr).length ≠ 1 := by
  refine ⟨rfl, by decide, by decide⟩

/-- C5 amended: the diff routine ignores the candidate's stored status and
reason entirely; it recomputes from the two paths — the single new-file
notice when the target is missing, otherwise a fresh unified diff of the
current contents when both files are readable. -/
theorem c5_amended_diff_ignores_status (fs : FS) (fi : FileInfo) (r r' : String)
    (_h : fi.status = Status.error r) :
    diffOfCandidate fs fi = get_file_diff fs fi.src fi.dest ∧
    diffOfCandidate fs { fi with status := Status.error r' } = diffOfCandidate fs fi ∧
    (fs fi.dest = none → diffOfCandidate fs fi = ["New file: " ++ pathName fi.src]) ∧
    (∀ c1 c2, fs fi.src = some (FileData.readable c1) →
      fs fi.dest = some (FileData.readable c2) →
      diffOfCandidate fs fi =
        unifiedDiff (readLines c2) (readLines c1) (pathStr fi.dest) (pathStr fi.src)) := by
  refine ⟨rfl, rfl, ?_, ?_⟩
  · intro hd
    simp [diffOfCandidate, get_file_diff, hd]
  · intro c1 c2 hs hd
    simp [diffOfCandidate, get_file_diff, hs, hd]

/-- C5 witness: the amended theorem applied to the concrete error-status
candidate, over the filesystem with both files present and over one with
the target missing. -/
theorem c5_witness :
    diffOfCandidate fsOneMod fiErr = get_file_diff fsOneMod fiErr.src fiErr.dest ∧
    diffOfCandidate fsOneMod { fiErr with status := Status.error "zap" } =
      diffOfCandidate fsOneMod fiErr ∧
    diffOfCandidate (fun _ => none) fiErr = ["New file: " ++ pathName fiErr.src] := by
  have h1 := c5_amended_diff_ignores_status fsOneMod fiErr "boom" "zap" rfl
  have h2 := c5_amended_diff_ignores_status (fun _ => none) fiErr "boom" "zap" rfl
  exact ⟨h1.1, h1.2.1, h2.2.2.1 rfl⟩

/-- C6: when `sync_file` succeeds on a `Modified` candidate, a fresh
comparison of the same pair over the resulting filesystem is `identical`:
the copy wrote the overlay content onto the target path. -/
theorem c6_roundtrip_after_sync (md5 : String → String) (w : World) (fi : FileInfo)
    (_hstat : fi.status = Status.modified)
    (hok : (sync_file w fi).2 = true) :
    compare_files md5 (sync_file w fi).1.fs fi.src fi.dest = Status.identical := by
  rcases hsrc : w.fs fi.src with _ | d
  · rw [sync_file_snd] at hok
    simp [isReadableB, hsrc] at hok
  · rcases d with c | _
    · by_cases hw : w.writable fi.dest
      · simp only [sync_file, hsrc, hw, if_true]
        rw [compare_files_eq]
        by_cases hsd : fi.src = fi.dest
        · simp [file_hash, hsd]
        · simp [file_hash, hsd, hsrc]
      · rw [sync_file_snd] at hok
        simp [hw] at hok
    · rw [sync_file_snd] at hok
      simp [isReadableB, hsrc] at hok

/-- C6 witness: a concrete successful sync of the modified candidate,
followed by a comparison that comes out identical. -/
theorem c6_witness :
    compare_files id (sync_file wOneBad fiOneMod).1.fs fiOneMod.src fiOneMod.dest =
      Status.identical :=
  c6_roundtrip_after_sync id wOneBad fiOneMod rfl (by decide)

/-- The two tallies of a batch always account for every selected
candidate: no failure aborts the loop early. -/
lemma sync_selected_total (w : World) (files : List FileInfo) :
    (sync_selected_files w files).success + (sync_selected_files w files).fail =
      countSelected files := by
  induction files generalizing w with
  | nil => rfl
  | cons fi rest ih =>
    have hc : countSelected (fi :: rest) =
        (if fi.selected then 1 else 0) + countSelected rest := by
      by_cases hsel : fi.selected <;> simp [countSelected, List.filter_cons, hsel, Nat.add_comm]
    by_cases hsel : fi.selected
    · have hih := ih (sync_file w fi).1
      cases hok : (sync_file w fi).2 <;>
        · simp [sync_selected_files, hsel, hok, hc]
          omega
    · have hih := ih w
      simp [sync_selected_files, hsel, hc]
      omega

/-- When every selected overlay file is readable, the failure tally equals
the number of selected candidates with unwritable destinations. -/
lemma sync_selected_fail_eq (w : World) (files : List FileInfo)
    (hr : ∀ fi ∈ files, fi.selected = true → isReadableB (w.fs fi.src) = true) :
    (sync_selected_files w files).fail = badCount w.writable files := by
  induction files generalizing w with
  | nil => rfl
  | cons fi rest ih =>
    by_cases hsel : fi.selected
    · have hread : isReadableB (w.fs fi.src) = true := hr fi (by simp) hsel
      have hok : (sync_file w fi).2 = w.writable fi.dest := by
        rw [sync_file_snd, hread, Bool.true_and]
      have hr' : ∀ fj ∈ rest, fj.selected = true →
          isReadableB ((sync_file w fi).1.fs fj.src) = true :=
        fun fj hj hsj => sync_file_readable w fi fj.src (hr fj (List.mem_cons_of_mem _ hj) hsj)
      have hih := ih (sync_file w fi).1 hr'
      rw [sync_file_writable] at hih
      by_cases hwd : w.writable fi.dest <;>
        simp [sync_selected_files, hsel, hok, hwd, badCount, List.filter_cons, hih]
    · have hr' : ∀ fj ∈ rest, fj.selected = true → isReadableB (w.fs fj.src) = true :=
        fun fj hj => hr fj (List.mem_cons_of_mem _ hj)
      simp [sync_selected_files, hsel, badCount, List.filter_cons, ih w hr']

/-- C2: the batch visits every selected candidate (success and failure
tallies always sum to the selected count — the embedded loop is total, so
no exception escapes), and when every selected overlay file is readable
and exactly one selected candidate's destination is unwritable, the batch
returns `successCount = selected - 1` and `failureCount = 1`. -/
theorem c2_partial_failure_tolerance :
    (∀ (w : World) (files : List FileInfo),
      (sync_selected_files w files).success + (sync_selected_files w files).fail =
        countSelected files) ∧
    (∀ (w : World) (files : List FileInfo),
      (∀ fi ∈ files, fi.selected = true → isReadableB (w.fs fi.src) = true) →
      badCount w.writable files = 1 →
      (sync_selected_files w files).success = countSelected files - 1 ∧
      (sync_selected_files w files).fail = 1) := by
  refine ⟨sync_selected_total, ?_⟩
  intro w files hr hbad
  have h1 := sync_selected_total w files
  have h2 := sync_selected_fail_eq w files hr
  rw [hbad] at h2
  omega

/-- C2 witness: three selected candidates, the middle one aimed at the
unwritable destination; two succeed and one fails. -/
theorem c2_witness :
    (sync_selected_files wOneBad filesOneBad).success = countSelected filesOneBad - 1 ∧
    (sync_selected_files wOneBad filesOneBad).fail = 1 :=
  c2_partial_failure_tolerance.2 wOneBad filesOneBad (by decide) (by decide)

/-- C9: applying a batch leaves every candidate exactly as it was — the
loop only reads the candidate dicts — while the SPACE-key toggle flips the
`selected` flag of the indexed candidate and nothing else. -/
theorem c9_apply_never_mutates :
    (∀ (w : World) (files : List FileInfo), (sync_selected_files w files).files = files) ∧
    (∀ (files : List FileInfo) (i : Nat) (fi : FileInfo), files[i]? = some fi →
      (toggle_selected files i)[i]? = some { fi with selected := !fi.selected }) ∧
    (∀ (files : List FileInfo) (i j : Nat), j ≠ i →
      (toggle_selected files i)[j]? = files[j]?) := by
  refine ⟨?_, ?_, ?_⟩
  · intro w files
    induction files generalizing w with
    | nil => rfl
    | cons fi rest ih =>
      by_cases hsel : fi.selected <;> simp [sync_selected_files, hsel, ih]
  · intro files i fi h
    have hlt : i < files.length := by
      by_contra hge
      rw [List.getElem?_eq_none (Nat.le_of_not_lt hge)] at h
      exact absurd h (by simp)
    simp [toggle_selected, h, List.getElem?_set, hlt]
  · intro files i j hne
    unfold toggle_selected
    cases h : files[i]? with
    | none => rfl
    | some fi => simp [List.getElem?_set, Ne.symm hne]

/-- C9 witness: the batch over the concrete three-candidate list returns
the list unchanged, and toggling index 0 flips only that flag. -/
theorem c9_witness :
    (sync_selected_files wOneBad filesOneBad).files = filesOneBad ∧
    (toggle_selected filesOneBad 0)[0]? =
      some { src := ["sys", "f"], dest := ["d1"], rel_path := "d1",
             status := Status.modified, selected := false } ∧
    (toggle_selected filesOneBad 0)[1]? = filesOneBad[1]? := by
  refine ⟨?_, ?_, ?_⟩
  · exact c9_apply_never_mutates.1 wOneBad filesOneBad
  · exact c9_apply_never_mutates.2.1 filesOneBad 0
      { src := ["sys", "f"], dest := ["d1"], rel_path := "d1",
        status := Status.modified, selected := true } rfl
  · exact c9_apply_never_mutates.2.2 filesOneBad 0 1 (by decide)

/-- Concatenating the lines of `readlines` restores the original text. -/
lemma splitCh_flatten : ∀ l : List Char, (splitCh l).flatten = l := by
  intro l
  induction l with
  | nil => rfl
  | cons c cs ih =>
    by_cases hc : c = '\n'
    · simp [splitCh, hc] at ih ⊢
      exact ih
    · cases h : splitCh cs with
      | nil =>
        have hcs : cs = [] := by rw [← ih, h]; rfl
        simp [splitCh, hc, h, hcs]
      | cons lhd ltl =>
        have hstep : splitCh (c :: cs) = (c :: lhd) :: ltl := by
          simp [splitCh, hc, h]
        rw [hstep, List.flatten_cons, List.cons_append, ← List.flatten_cons, ← h, ih]

/-- Mapping a string list back to its character lists undoes `String.mk`. -/
lemma map_data_map_mk (L : List (List Char)) :
    (L.map String.mk).map String.data = L := by
  induction L with
  | nil => rfl
  | cons a as ih => exact congrArg (List.cons a) ih

/-- Two texts with the same `readlines` decomposition are equal: the line
split loses no information. -/
lemma readLines_inj {s t : String} (h : readLines s = readLines t) : s = t := by
  apply String.ext
  have h2 : splitCh s.data = splitCh t.data := by
    have h3 := congrArg (List.map String.data) h
    rwa [readLines, readLines, map_data_map_mk, map_data_map_mk] at h3
  calc s.data = (splitCh s.data).flatten := (splitCh_flatten s.data).symm
    _ = (splitCh t.data).flatten := by rw [h2]
    _ = t.data := splitCh_flatten t.data

/-- Every change line of the diff body is a `-`-prefixed line of the from
side, a `+`-prefixed line of the to side, or a space-prefixed common
line. -/
lemma diffBody_mem : ∀ (f t : List String) (l : String), l ∈ diffBody f t →
    (∃ a, a ∈ f ∧ l = "-" ++ a) ∨ (∃ b, b ∈ t ∧ l = "+" ++ b) ∨
    (∃ a, a ∈ f ∧ a ∈ t ∧ l = " " ++ a) := by
  intro f
  induction f with
  | nil =>
    intro t l hl
    simp only [diffBody, List.mem_map] at hl
    obtain ⟨b, hb, rfl⟩ := hl
    exact Or.inr (Or.inl ⟨b, hb, rfl⟩)
  | cons a as ih =>
    intro t l hl
    cases t with
    | nil =>
      rw [diffBody] at hl
      rcases List.mem_cons.mp hl with h | h
      · exact Or.inl ⟨a, List.mem_cons_self a as, h⟩
      · rcases ih [] l h with ⟨a', ha', he⟩ | ⟨b, hb, _⟩ | ⟨a', _, hb, _⟩
        · exact Or.inl ⟨a', List.mem_cons_of_mem a ha', he⟩
        · exact absurd hb (List.not_mem_nil b)
        · exact absurd hb (List.not_mem_nil a')
    | cons b bs =>
      rw [diffBody] at hl
      by_cases hab : a = b
      · rw [if_pos hab] at hl
        rcases List.mem_cons.mp hl with h | h
        · exact Or.inr (Or.inr ⟨a, List.mem_cons_self a as, hab ▸ List.mem_cons_self b bs, h⟩)
        · rcases ih bs l h with ⟨a', ha', he⟩ | ⟨b', hb', he⟩ | ⟨a', ha', hb', he⟩
          · exact Or.inl ⟨a', List.mem_cons_of_mem a ha', he⟩
          · exact Or.inr (Or.inl ⟨b', List.mem_cons_of_mem b hb', he⟩)
          · exact Or.inr (Or.inr ⟨a', List.mem_cons_of_mem a ha',
              List.mem_cons_of_mem b hb', he⟩)
      · rw [if_neg hab] at hl
        rcases List.mem_cons.mp hl with h | h
        · exact Or.inl ⟨a, List.mem_cons_self a as, h⟩
        · rcases ih (b :: bs) l h with ⟨a', ha', he⟩ | ⟨b', hb', he⟩ | ⟨a', ha', hb', he⟩
          · exact Or.inl ⟨a', List.mem_cons_of_mem a ha', he⟩
          · exact Or.inr (Or.inl ⟨b', hb', he⟩)
          · exact Or.inr (Or.inr ⟨a', List.mem_cons_of_mem a ha', hb', he⟩)

/-- C8: a `Modified` pair of readable, byte-differing text files gets a
unified-style diff whose from side is the target (`---` header names the
target path) and whose to side is the overlay (`+++` header names the
overlay path); the output contains at least one line starting with `+`
and one starting with `-`; and every `-` change line is a line of the
target content being replaced while every `+` change line is a line of
the overlay content being introduced. -/
theorem c8_modified_diff_orientation (md5 : String → String)
    (hinj : Function.Injective md5) (fs : FS) (src dest : Path) (c1 c2 : String)
    (hs : fs src = some (FileData.readable c1))
    (hd : fs dest = some (FileData.readable c2))
    (hne : c1 ≠ c2) :
    compare_files md5 fs src dest = Status.modified ∧
    get_file_diff fs src dest =
      ("--- " ++ pathStr dest) :: ("+++ " ++ pathStr src) :: "@@" ::
        diffBody (readLines c2) (readLines c1) ∧
    (∃ l ∈ get_file_diff fs src dest, l.data.head? = some '-') ∧
    (∃ l ∈ get_file_diff fs src dest, l.data.head? = some '+') ∧
    (∀ l ∈ diffBody (readLines c2) (readLines c1),
      (l.data.head? = some '-' → ∃ a ∈ readLines c2, l = "-" ++ a) ∧
      (l.data.head? = some '+' → ∃ b ∈ readLines c1, l = "+" ++ b)) := by
  have hlines : readLines c2 ≠ readLines c1 := fun h => hne (readLines_inj h).symm
  have hcmp : compare_files md5 fs src dest = Status.modified := by
    rw [compare_files_eq]
    have hmd : md5 c1 ≠ md5 c2 := fun h => hne (hinj h)
    simp [file_hash, hs, hd, hmd]
  have hdiff : get_file_diff fs src dest =
      ("--- " ++ pathStr dest) :: ("+++ " ++ pathStr src) :: "@@" ::
        diffBody (readLines c2) (readLines c1) := by
    simp [get_file_diff, hs, hd, unifiedDiff, hlines]
  refine ⟨hcmp, hdiff, ?_, ?_, ?_⟩
  · refine ⟨"--- " ++ pathStr dest, ?_, rfl⟩
    rw [hdiff]
    exact List.mem_cons_self _ _
  · refine ⟨"+++ " ++ pathStr src, ?_, rfl⟩
    rw [hdiff]
    exact List.mem_cons_of_mem _ (List.mem_cons_self _ _)
  · intro l hl
    rcases diffBody_mem _ _ l hl with ⟨a, ha, rfl⟩ | ⟨b, hb, rfl⟩ | ⟨a, _, _, rfl⟩
    · refine ⟨fun _ => ⟨a, ha, rfl⟩, fun hplus => ?_⟩
      rw [show (("-" : String) ++ a).data.head? = some '-' from rfl] at hplus
      exact absurd hplus (by decide)
    · refine ⟨fun hminus => ?_, fun _ => ⟨b, hb, rfl⟩⟩
      rw [show (("+" : String) ++ b).data.head? = some '+' from rfl] at hminus
      exact absurd hminus (by decide)
    · refine ⟨fun hminus => ?_, fun hplus => ?_⟩
      · rw [show ((" " : String) ++ a).data.head? = some ' ' from rfl] at hminus
        exact absurd hminus (by decide)
      · rw [show ((" " : String) ++ a).data.head? = some ' ' from rfl] at hplus
        exact absurd hplus (by decide)

/-- C8 witness: the concrete modified pair of `fsOneMod` and its diff. -/
theorem c8_witness :
    compare_files id fsOneMod ["sys", "f"] ["tgt", "f"] = Status.modified ∧
    get_file_diff fsOneMod ["sys", "f"] ["tgt", "f"] =
      ("--- " ++ pathStr ["tgt", "f"]) :: ("+++ " ++ pathStr ["sys", "f"]) :: "@@" ::
        diffBody (readLines "b\n") (readLines "a\n") := by
  have h := c8_modified_diff_orientation id (fun _ _ hab => hab) fsOneMod
      ["sys", "f"] ["tgt", "f"] "a\n" "b\n" rfl rfl (by decide)
  exact ⟨h.1, h.2.1⟩

end SystemSync
